import Mathlib

set_option maxHeartbeats 1000000

/-! Shallow embedding of the Level Zero hot-kernels collector
    (samples/ze_hot_kernels/ze_kernel_collector.h) and of the ptitrace
    buffer-return handler (tools/ptitrace/pti-adapter.cc).

    Driver handles (events, event pools, command lists, contexts) are
    modelled as natural numbers, with 0 standing for nullptr.  uint64
    arithmetic is modelled on Nat with explicit reduction modulo 2^64 at
    the operations the source performs in uint64.  A PTI_ASSERT failure
    aborts the process, so every operation that can hit an assert is
    Option-valued, with none standing for the abort. -/

/-- ze_result_t values the collector distinguishes: ZE_RESULT_SUCCESS,
    ZE_RESULT_NOT_READY, and every other (error) value collapsed into one
    constructor. -/
inductive ZeResult where
  | success
  | notReady
  | otherError
deriving DecidableEq

/-- struct ZeKernelInstance (ze_kernel_collector.h lines 22-27).  The
    event_pool field is nullable: some p means the tracker created the
    pool itself (tracker-owned completion signal), none models nullptr
    (caller-supplied signal). -/
structure ZeKernelInstance where
  name : String
  simd_width : Nat
  event_pool : Option Nat
  event : Nat
deriving DecidableEq

/-- struct ZeKernelInfo (lines 29-49), the per-kernel aggregate entry. -/
structure ZeKernelInfo where
  total_time : Nat
  min_time : Nat
  max_time : Nat
  call_count : Nat
  simd_width : Nat
deriving DecidableEq

/-- struct ZeKernelInterval (lines 51-55). -/
structure ZeKernelInterval where
  name : String
  start : Nat
  «end» : Nat
deriving DecidableEq

/-- ZeKernelInfoMap, a std::map from kernel name to aggregate entry,
    modelled as an association list in first-insertion order (no claim
    observes the key ordering of std::map, only lookups). -/
abbrev ZeKernelInfoMap := List (String × ZeKernelInfo)

abbrev ZeKernelIntervalList := List ZeKernelInterval

/-- ZeCommandListMap, a std::map from command-list handle to the context
    handle the list was created with (lines 59-60). -/
abbrev ZeCommandListMap := List (Nat × Nat)

/-- Read access kernel_info_map_[name]: first entry with the given key. -/
def lookupInfo : ZeKernelInfoMap → String → Option ZeKernelInfo
  | [], _ => none
  | (n, k) :: rest, name => if n = name then some k else lookupInfo rest name

/-- Read access command_list_map_[command_list]. -/
def lookupCmdList : ZeCommandListMap → Nat → Option Nat
  | [], _ => none
  | (c, ctx) :: rest, cl => if c = cl then some ctx else lookupCmdList rest cl

/-- command_list_map_.count(command_list). -/
def countCmdList (m : ZeCommandListMap) (cl : Nat) : Nat :=
  (m.filter (fun p => p.1 == cl)).length

/-- The mutable data members of ZeKernelCollector (lines 595-603) that the
    claims observe, together with the timer frequency captured at
    construction (line 157). -/
structure CollectorState where
  kernel_info_map : ZeKernelInfoMap
  kernel_interval_list : ZeKernelIntervalList
  kernel_instance_list : List ZeKernelInstance
  command_list_map : ZeCommandListMap
  timer_frequency : Nat
deriving DecidableEq

/-- Read-only snapshot of the driver-side event state: what
    zeEventQueryStatus and zeEventQueryKernelTimestamp return for each
    event handle. -/
structure EventEnv where
  status : Nat → ZeResult
  timestamp : Nat → Nat × Nat

def NSEC_IN_SEC : Nat := 1000000000

def U64 : Nat := 2 ^ 64

/-- uint64 multiplication. -/
def u64mul (a b : Nat) : Nat := a * b % U64

/-- uint64 addition. -/
def u64add (a b : Nat) : Nat := (a + b) % U64

/-- uint64 subtraction (wraparound semantics, for a b < 2^64). -/
def u64sub (a b : Nat) : Nat := (a + U64 - b) % U64

/-- Timestamp-conversion section of ZeKernelCollector::ProcessInstance
    (lines 239-253): from the raw tick pair to (start_ns, end_ns, time).
    none models the PTI_ASSERT(start < (1ULL << 32)) abort in the 32-bit
    timer-overflow branch. -/
def processTimestamp (timer_frequency start «end» : Nat) : Option (Nat × Nat × Nat) :=
  let start_ns := u64mul start NSEC_IN_SEC / timer_frequency
  if start < «end» then
    let end_ns := u64mul «end» NSEC_IN_SEC / timer_frequency
    some (start_ns, end_ns, u64sub end_ns start_ns)
  else
    if start < 2 ^ 32 then
      let end_ns := u64mul (u64add (2 ^ 32) «end») NSEC_IN_SEC / timer_frequency
      some (start_ns, end_ns, u64sub end_ns start_ns)
    else
      none

/-- The update ZeKernelCollector::AddKernelInfo applies to an existing
    entry (lines 292-301).  The compound additions total_time += time and
    call_count += 1 are uint64 operations and wrap modulo 2^64; the
    comparisons for min and max involve no arithmetic. -/
def updateInfo (kernel : ZeKernelInfo) (time simd_width : Nat) : ZeKernelInfo :=
  { total_time := u64add kernel.total_time time
    min_time := if time < kernel.min_time then time else kernel.min_time
    max_time := if time > kernel.max_time then time else kernel.max_time
    call_count := u64add kernel.call_count 1
    simd_width := max kernel.simd_width simd_width }

/-- Map update of ZeKernelCollector::AddKernelInfo: insert on first
    occurrence of the name, update the entry in place otherwise. -/
def addKernelInfoRec : ZeKernelInfoMap → String → Nat → Nat → ZeKernelInfoMap
  | [], name, time, simd_width => [(name, ⟨time, time, time, 1, simd_width⟩)]
  | (n, k) :: rest, name, time, simd_width =>
    if n = name then (n, updateInfo k time simd_width) :: rest
    else (n, k) :: addKernelInfoRec rest name time simd_width

/-- ZeKernelCollector::AddKernelInfo (lines 286-303); none models the
    PTI_ASSERT on an empty kernel name. -/
def addKernelInfo (m : ZeKernelInfoMap) (name : String) (time simd_width : Nat) :
    Option ZeKernelInfoMap :=
  if name = "" then none else some (addKernelInfoRec m name time simd_width)

/-- ZeKernelCollector::AddKernelInterval (lines 305-309); none models the
    asserts on the name and on start < end. -/
def addKernelInterval (l : ZeKernelIntervalList) (name : String) (start «end» : Nat) :
    Option ZeKernelIntervalList :=
  if name = "" then none
  else if start < «end» then some (l ++ [⟨name, start, «end»⟩])
  else none

/-- ZeKernelCollector::ProcessInstance(const ZeKernelInstance&)
    (lines 230-265) acting on the aggregate map and the interval list.
    The destruction of a tracker-owned event and pool at the end of the
    source function is a driver call with no component in the modelled
    state.  none models any PTI_ASSERT abort on the path, including a
    non-success zeEventQueryStatus result. -/
def processInstanceCore (env : EventEnv) (timer_frequency : Nat)
    (info : ZeKernelInfoMap) (intervals : ZeKernelIntervalList)
    (inst : ZeKernelInstance) : Option (ZeKernelInfoMap × ZeKernelIntervalList) :=
  if env.status inst.event = ZeResult.success then
    match processTimestamp timer_frequency (env.timestamp inst.event).1
        (env.timestamp inst.event).2 with
    | none => none
    | some (start_ns, end_ns, time) =>
      match addKernelInfo info inst.name time inst.simd_width with
      | none => none
      | some info2 =>
        match addKernelInterval intervals inst.name start_ns end_ns with
        | none => none
        | some intervals2 => some (info2, intervals2)
  else none

/-- ZeKernelCollector::ProcessInstance(ze_event_handle_t) (lines 216-228):
    find the first in-flight instance carrying this completion signal,
    resolve it and erase it from the in-flight list; when no instance
    matches the loop falls through and the call is a no-op. -/
def processInstanceByEvent (env : EventEnv) (s : CollectorState) (event : Nat) :
    Option CollectorState :=
  if event = 0 then none
  else
    match s.kernel_instance_list.find? (fun i => i.event == event) with
    | none => some s
    | some inst =>
      match processInstanceCore env s.timer_frequency s.kernel_info_map
          s.kernel_interval_list inst with
      | none => none
      | some (info2, intervals2) =>
        some { s with
          kernel_info_map := info2
          kernel_interval_list := intervals2
          kernel_instance_list :=
            s.kernel_instance_list.eraseP (fun i => i.event == event) }

/-- Loop of ZeKernelCollector::ProcessInstances (lines 271-283): walk the
    in-flight list, keep instances whose event polls ZE_RESULT_NOT_READY,
    resolve and erase those polling ZE_RESULT_SUCCESS, and hit
    PTI_ASSERT(0) (none) on any other status or on a null event. -/
def processInstancesGo (env : EventEnv) (timer_frequency : Nat) :
    List ZeKernelInstance → ZeKernelInfoMap → ZeKernelIntervalList →
    Option (List ZeKernelInstance × ZeKernelInfoMap × ZeKernelIntervalList)
  | [], info, intervals => some ([], info, intervals)
  | inst :: rest, info, intervals =>
    if inst.event = 0 then none
    else
      match env.status inst.event with
      | ZeResult.notReady =>
        match processInstancesGo env timer_frequency rest info intervals with
        | none => none
        | some (kept, info2, intervals2) => some (inst :: kept, info2, intervals2)
      | ZeResult.success =>
        match processInstanceCore env timer_frequency info intervals inst with
        | none => none
        | some (info2, intervals2) =>
          processInstancesGo env timer_frequency rest info2 intervals2
      | ZeResult.otherError => none

/-- ZeKernelCollector::ProcessInstances (lines 267-284). -/
def processInstances (env : EventEnv) (s : CollectorState) : Option CollectorState :=
  match processInstancesGo env s.timer_frequency s.kernel_instance_list
      s.kernel_info_map s.kernel_interval_list with
  | none => none
  | some (kept, info2, intervals2) =>
    some { s with
      kernel_instance_list := kept
      kernel_info_map := info2
      kernel_interval_list := intervals2 }

/-- ZeKernelCollector::AddCommandList (lines 311-319); none models the
    asserts on null handles and on PTI_ASSERT(count == 0). -/
def addCommandList (s : CollectorState) (command_list context : Nat) :
    Option CollectorState :=
  if command_list = 0 then none
  else if context = 0 then none
  else if countCmdList s.command_list_map command_list = 0 then
    some { s with
      command_list_map := s.command_list_map ++ [(command_list, context)] }
  else none

/-- ZeKernelCollector::RemoveCommandList (lines 321-326); none models the
    asserts on a null handle and on PTI_ASSERT(count == 1). -/
def removeCommandList (s : CollectorState) (command_list : Nat) :
    Option CollectorState :=
  if command_list = 0 then none
  else if countCmdList s.command_list_map command_list = 1 then
    some { s with
      command_list_map := s.command_list_map.filter (fun p => !(p.1 == command_list)) }
  else none

/-- ZeKernelCollector::GetCommandListContext (lines 328-334); none models
    the asserts on a null handle and on PTI_ASSERT(count == 1). -/
def getCommandListContext (s : CollectorState) (command_list : Nat) : Option Nat :=
  if command_list = 0 then none
  else if countCmdList s.command_list_map command_list = 1 then
    lookupCmdList s.command_list_map command_list
  else none

/-- OnEnterKernelAppend (lines 419-448).  fresh_pool and fresh_event stand
    for the handles CreateEvent obtains from the driver when the caller
    supplied no signal event (signal_event = 0).  The value is the pair
    (instance data, signal event after the call); the outer none models a
    PTI_ASSERT abort (empty kernel name, or the asserts inside
    GetCommandListContext). -/
def onEnterKernelAppend (s : CollectorState) (name : String) (simd_width : Nat)
    (signal_event command_list fresh_pool fresh_event : Nat) :
    Option (Option ZeKernelInstance × Nat) :=
  if name = "" then none
  else if command_list = 0 then some (none, signal_event)
  else if signal_event = 0 then
    match getCommandListContext s command_list with
    | none => none
    | some _ => some (some ⟨name, simd_width, some fresh_pool, fresh_event⟩, fresh_event)
  else some (some ⟨name, simd_width, none, signal_event⟩, signal_event)

/-- Teardown calls a callback issues against the driver. -/
inductive DriverAction where
  | destroyEvent (event : Nat)
  | destroyEventPool (pool : Nat)
deriving DecidableEq

/-- OnExitKernelAppend (lines 480-508): when the underlying append call
    failed, the instance is dropped and a tracker-owned signal and its
    pool are destroyed; on success AddKernelInstance (lines 209-214)
    pushes the instance onto the in-flight list. -/
def onExitKernelAppend (s : CollectorState) (command_list : Nat)
    (instance_data : Option ZeKernelInstance) (result : ZeResult) :
    Option (CollectorState × List DriverAction) :=
  if command_list = 0 then none
  else
    match instance_data with
    | none => some (s, [])
    | some inst =>
      if result ≠ ZeResult.success then
        match inst.event_pool with
        | some pool => some (s, [DriverAction.destroyEvent inst.event,
                                 DriverAction.destroyEventPool pool])
        | none => some (s, [])
      else
        some ({ s with kernel_instance_list := s.kernel_instance_list ++ [inst] }, [])

/-- OnExitCommandListDestroy (lines 560-571). -/
def onExitCommandListDestroy (env : EventEnv) (result : ZeResult)
    (command_list : Nat) (s : CollectorState) : Option CollectorState :=
  if result = ZeResult.success then
    if command_list = 0 then none
    else
      match processInstances env s with
      | none => none
      | some s2 => removeCommandList s2 command_list
  else some s

/-- OnExitCommandQueueSynchronize (lines 573-582). -/
def onExitCommandQueueSynchronize (env : EventEnv) (result : ZeResult)
    (s : CollectorState) : Option CollectorState :=
  if result = ZeResult.success then processInstances env s else some s

/-- Status of one ptiViewGetNextRecord call inside BufferReturned. -/
inductive GetRecordResult where
  | success
  | endOfBuffer
  | errorFound
deriving DecidableEq

/-- Records the while loop of BufferReturned decodes before the first
    PTI_STATUS_END_OF_BUFFER or error status. -/
def decodeLoop : List GetRecordResult → Nat
  | [] => 0
  | GetRecordResult.success :: rest => 1 + decodeLoop rest
  | GetRecordResult.endOfBuffer :: _ => 0
  | GetRecordResult.errorFound :: _ => 0

/-- Observable effects of one BufferReturned call. -/
structure ReturnOutcome where
  decode_attempted : Bool
  records_added : Nat
  freed : Bool
deriving DecidableEq

/-- BufferReturned (pti-adapter.cc lines 170-192).  buffer = 0 models a
    null pointer; the stream lists the statuses the successive
    ptiViewGetNextRecord calls would return. -/
def bufferReturned (buffer buf_size valid_buf_size : Nat)
    (stream : List GetRecordResult) : ReturnOutcome :=
  if buffer = 0 ∨ valid_buf_size = 0 ∨ buf_size = 0 then
    { decode_attempted := false
      records_added := 0
      freed := valid_buf_size != 0 }
  else
    { decode_attempted := true
      records_added := decodeLoop stream
      freed := true }

/-- A sequence of AddKernelInfo calls, each (name, duration, simd width). -/
def addMany : ZeKernelInfoMap → List (String × Nat × Nat) → Option ZeKernelInfoMap
  | m, [] => some m
  | m, (name, time, simd_width) :: rest =>
    match addKernelInfo m name time simd_width with
    | none => none
    | some m2 => addMany m2 rest

/-- Sum of the durations a call sequence contributes under one name. -/
def sumDurations (calls : List (String × Nat × Nat)) (name : String) : Nat :=
  ((calls.filter (fun c => c.1 == name)).map (fun c => c.2.1)).sum

/-- Number of calls a sequence contributes under one name. -/
def countCalls (calls : List (String × Nat × Nat)) (name : String) : Nat :=
  (calls.filter (fun c => c.1 == name)).length

/-! Helper lemmas about the uint64 model. -/

theorem u64sub_eq_sub (a b : Nat) (hba : b ≤ a) (ha : a < U64) : u64sub a b = a - b := by
  unfold u64sub
  have h1 : a + U64 - b = (a - b) + U64 := by omega
  rw [h1, Nat.add_mod_right]
  exact Nat.mod_eq_of_lt (by omega)

theorem mul_nsec_lt_u64 (t : Nat) (h : t < 2 ^ 33) : t * NSEC_IN_SEC < U64 := by
  unfold NSEC_IN_SEC U64
  calc t * 1000000000 ≤ 2 ^ 33 * 1000000000 :=
        Nat.mul_le_mul_right 1000000000 (Nat.le_of_lt h)
    _ < 2 ^ 64 := by norm_num

/-- The overflow branch of the timestamp conversion, fully reduced: for a
    non-increasing raw pair with start below 2^32 no uint64 operation
    wraps, both ends convert by plain multiply-divide and the duration is
    an ordinary non-negative difference. -/
theorem processTimestamp_overflow_branch (f start «end» : Nat)
    (h1 : ¬ start < «end») (h2 : start < 2 ^ 32) :
    processTimestamp f start «end» =
      some (start * 1000000000 / f, (2 ^ 32 + «end») * 1000000000 / f,
            (2 ^ 32 + «end») * 1000000000 / f - start * 1000000000 / f) ∧
    start * 1000000000 / f ≤ (2 ^ 32 + «end») * 1000000000 / f := by
  have hend : 2 ^ 32 + «end» < 2 ^ 33 := by omega
  have hm1 : start * NSEC_IN_SEC % U64 = start * NSEC_IN_SEC :=
    Nat.mod_eq_of_lt (mul_nsec_lt_u64 start (by omega))
  have hm2 : (2 ^ 32 + «end») % U64 = 2 ^ 32 + «end» :=
    Nat.mod_eq_of_lt (by unfold U64; omega)
  have hm3 : (2 ^ 32 + «end») * NSEC_IN_SEC % U64 = (2 ^ 32 + «end») * NSEC_IN_SEC :=
    Nat.mod_eq_of_lt (mul_nsec_lt_u64 _ hend)
  have hle : start * NSEC_IN_SEC / f ≤ (2 ^ 32 + «end») * NSEC_IN_SEC / f :=
    Nat.div_le_div_right (Nat.mul_le_mul_right NSEC_IN_SEC (by omega))
  have hlt : (2 ^ 32 + «end») * NSEC_IN_SEC / f < U64 :=
    lt_of_le_of_lt (Nat.div_le_self _ _) (mul_nsec_lt_u64 _ hend)
  have hns : NSEC_IN_SEC = 1000000000 := rfl
  unfold processTimestamp u64mul u64add
  rw [if_neg h1, if_pos h2, hm1, hm2, hm3]
  rw [hns] at hle hlt
  simp only [hns]
  rw [u64sub_eq_sub _ _ hle hlt]
  exact ⟨rfl, hle⟩

theorem div_add_div_le_add_div (a b f : Nat) (hf : 0 < f) :
    a / f + b / f ≤ (a + b) / f := by
  rw [Nat.le_div_iff_mul_le hf]
  calc (a / f + b / f) * f = a / f * f + b / f * f := by ring
    _ ≤ a + b := Nat.add_le_add (Nat.div_mul_le_self a f) (Nat.div_mul_le_self b f)

/-- C2: for every raw pair with end_ticks < start_ticks and
    start_ticks < 2^32 the corrector computes corrected_end =
    2^32 + end_ticks, converts both ends independently by truncating
    ticks * 10^9 / timer_frequency, and reports the non-negative duration
    end_ns - start_ns; on the spec example the duration is 16 ns; and
    when start_ticks is not representable in 32 bits the conversion is a
    fatal assertion failure (none), not a recoverable error. -/
theorem wraparound_correction_c2 :
    (∀ (f start «end» : Nat), 0 < f → «end» < start → start < 2 ^ 32 →
      processTimestamp f start «end» =
        some (start * 1000000000 / f, (2 ^ 32 + «end») * 1000000000 / f,
              (2 ^ 32 + «end») * 1000000000 / f - start * 1000000000 / f) ∧
      start * 1000000000 / f ≤ (2 ^ 32 + «end») * 1000000000 / f)
    ∧ processTimestamp 1000000000 4294967290 10 = some (4294967290, 4294967306, 16)
    ∧ (∀ (f start «end» : Nat), «end» ≤ start → 2 ^ 32 ≤ start →
      processTimestamp f start «end» = none) := by
  refine ⟨fun f start «end» _ hlt h32 =>
    processTimestamp_overflow_branch f start «end» (by omega) h32, by decide,
    fun f start «end» hle h32 => ?_⟩
  unfold processTimestamp
  rw [if_neg (by omega), if_neg (by omega)]

/-- Witness for C2 at concrete inputs. -/
theorem wraparound_correction_c2_witness :
    (processTimestamp 1000000000 4294967290 10 =
        some (4294967290 * 1000000000 / 1000000000,
              (2 ^ 32 + 10) * 1000000000 / 1000000000,
              (2 ^ 32 + 10) * 1000000000 / 1000000000 -
                4294967290 * 1000000000 / 1000000000) ∧
      4294967290 * 1000000000 / 1000000000 ≤ (2 ^ 32 + 10) * 1000000000 / 1000000000)
    ∧ processTimestamp 1 4294967296 0 = none :=
  ⟨wraparound_correction_c2.1 1000000000 4294967290 10 (by decide) (by decide) (by decide),
   wraparound_correction_c2.2.2 1 4294967296 0 (by decide) (by decide)⟩

/-- C9: when the raw start and end ticks are equal, the non-overflow
    branch (taken only for start < end) is skipped, the overflow branch
    runs, and the reported duration is
    (2^32 + t) * 10^9 / f - t * 10^9 / f rather than 0; it is in fact
    positive whenever the timer frequency is positive and at most
    2^32 * 10^9 Hz. -/
theorem equal_ticks_overflow_c9 :
    (∀ (f t : Nat), t < 2 ^ 32 →
      processTimestamp f t t =
        some (t * 1000000000 / f, (2 ^ 32 + t) * 1000000000 / f,
              (2 ^ 32 + t) * 1000000000 / f - t * 1000000000 / f))
    ∧ (∀ (f t : Nat), 0 < f → f ≤ 2 ^ 32 * 1000000000 → t < 2 ^ 32 →
      0 < (2 ^ 32 + t) * 1000000000 / f - t * 1000000000 / f) := by
  constructor
  · intro f t h32
    exact (processTimestamp_overflow_branch f t t (by omega) h32).1
  · intro f t hf hfle h32
    have hsplit : (2 ^ 32 + t) * 1000000000 = t * 1000000000 + 2 ^ 32 * 1000000000 := by
      ring
    have hone : 1 ≤ 2 ^ 32 * 1000000000 / f := (Nat.one_le_div_iff hf).mpr hfle
    have hkey : t * 1000000000 / f + 2 ^ 32 * 1000000000 / f ≤
        (t * 1000000000 + 2 ^ 32 * 1000000000) / f :=
      div_add_div_le_add_div _ _ f hf
    have hAB : t * 1000000000 / f + 1 ≤ (2 ^ 32 + t) * 1000000000 / f := by
      rw [hsplit]
      exact le_trans (Nat.add_le_add_left hone _) hkey
    exact Nat.sub_pos_of_lt hAB

/-- Witness for C9 at concrete inputs. -/
theorem equal_ticks_overflow_c9_witness :
    processTimestamp 1000000000 5 5 =
      some (5 * 1000000000 / 1000000000, (2 ^ 32 + 5) * 1000000000 / 1000000000,
            (2 ^ 32 + 5) * 1000000000 / 1000000000 - 5 * 1000000000 / 1000000000)
    ∧ 0 < (2 ^ 32 + 5) * 1000000000 / 1000000000 - 5 * 1000000000 / 1000000000 :=
  ⟨equal_ticks_overflow_c9.1 1000000000 5 (by decide),
   equal_ticks_overflow_c9.2 1000000000 5 (by decide) (by decide) (by decide)⟩

/-! Helper lemmas about the aggregate map. -/

theorem lookupInfo_addKernelInfoRec_self (m : ZeKernelInfoMap) (name : String)
    (time simd_width : Nat) :
    lookupInfo (addKernelInfoRec m name time simd_width) name =
      some (match lookupInfo m name with
            | none => ⟨time, time, time, 1, simd_width⟩
            | some k => updateInfo k time simd_width) := by
  induction m with
  | nil => simp [addKernelInfoRec, lookupInfo]
  | cons p rest ih =>
    obtain ⟨n, k⟩ := p
    by_cases h : n = name
    · subst h
      simp [addKernelInfoRec, lookupInfo]
    · simp [addKernelInfoRec, lookupInfo, h, ih]

theorem lookupInfo_addKernelInfoRec_other (m : ZeKernelInfoMap) (name n2 : String)
    (time simd_width : Nat) (hne : n2 ≠ name) :
    lookupInfo (addKernelInfoRec m name time simd_width) n2 = lookupInfo m n2 := by
  induction m with
  | nil => simp [addKernelInfoRec, lookupInfo, Ne.symm hne]
  | cons p rest ih =>
    obtain ⟨n, k⟩ := p
    by_cases h : n = name
    · subst h
      simp [addKernelInfoRec, lookupInfo, Ne.symm hne]
    · simp [addKernelInfoRec, lookupInfo, h, ih]

theorem addKernelInfoRec_of_lookup_none (m : ZeKernelInfoMap) (name : String)
    (time simd_width : Nat) (h : lookupInfo m name = none) :
    addKernelInfoRec m name time simd_width =
      m ++ [(name, ⟨time, time, time, 1, simd_width⟩)] := by
  induction m with
  | nil => simp [addKernelInfoRec]
  | cons p rest ih =>
    obtain ⟨n, k⟩ := p
    by_cases hn : n = name
    · simp [lookupInfo, hn] at h
    · simp [lookupInfo, hn] at h
      simp [addKernelInfoRec, hn, ih h]

/-- Total time recorded under a name (0 when the name is absent). -/
def totalOf (m : ZeKernelInfoMap) (name : String) : Nat :=
  match lookupInfo m name with
  | none => 0
  | some k => k.total_time

/-- Call count recorded under a name (0 when the name is absent). -/
def countOf (m : ZeKernelInfoMap) (name : String) : Nat :=
  match lookupInfo m name with
  | none => 0
  | some k => k.call_count

theorem totalOf_addKernelInfoRec (m : ZeKernelInfoMap) (name n2 : String)
    (time simd_width : Nat) :
    totalOf (addKernelInfoRec m name time simd_width) n2 =
      if n2 = name then
        (if lookupInfo m name = none then time
         else (totalOf m n2 + time) % 2 ^ 64)
      else totalOf m n2 := by
  by_cases h : n2 = name
  · subst h
    unfold totalOf
    rw [lookupInfo_addKernelInfoRec_self]
    cases hlk : lookupInfo m n2 <;> simp [hlk, updateInfo, u64add, U64]
  · unfold totalOf
    rw [lookupInfo_addKernelInfoRec_other m name n2 time simd_width h]
    simp [h]

theorem countOf_addKernelInfoRec (m : ZeKernelInfoMap) (name n2 : String)
    (time simd_width : Nat) :
    countOf (addKernelInfoRec m name time simd_width) n2 =
      if n2 = name then
        (if lookupInfo m name = none then 1
         else (countOf m n2 + 1) % 2 ^ 64)
      else countOf m n2 := by
  by_cases h : n2 = name
  · subst h
    unfold countOf
    rw [lookupInfo_addKernelInfoRec_self]
    cases hlk : lookupInfo m n2 <;> simp [hlk, updateInfo, u64add, U64]
  · unfold countOf
    rw [lookupInfo_addKernelInfoRec_other m name n2 time simd_width h]
    simp [h]

theorem totalOf_of_none (m : ZeKernelInfoMap) (name : String)
    (h : lookupInfo m name = none) : totalOf m name = 0 := by
  unfold totalOf
  rw [h]

theorem countOf_of_none (m : ZeKernelInfoMap) (name : String)
    (h : lookupInfo m name = none) : countOf m name = 0 := by
  unfold countOf
  rw [h]

/-- The stored accumulators of every entry are uint64 values. -/
def infoWF (m : ZeKernelInfoMap) : Prop :=
  ∀ name k, lookupInfo m name = some k →
    k.total_time < 2 ^ 64 ∧ k.call_count < 2 ^ 64

theorem totalOf_lt_of_infoWF (m : ZeKernelInfoMap) (name : String)
    (hw : infoWF m) : totalOf m name < 2 ^ 64 := by
  unfold totalOf
  cases hlk : lookupInfo m name with
  | none => norm_num
  | some k => exact (hw name k hlk).1

theorem countOf_lt_of_infoWF (m : ZeKernelInfoMap) (name : String)
    (hw : infoWF m) : countOf m name < 2 ^ 64 := by
  unfold countOf
  cases hlk : lookupInfo m name with
  | none => norm_num
  | some k => exact (hw name k hlk).2

theorem infoWF_addKernelInfoRec (m : ZeKernelInfoMap) (name : String)
    (time simd_width : Nat) (hw : infoWF m) (ht : time < 2 ^ 64) :
    infoWF (addKernelInfoRec m name time simd_width) := by
  intro n2 k2 hlk
  by_cases h : n2 = name
  · subst h
    rw [lookupInfo_addKernelInfoRec_self] at hlk
    simp only [Option.some.injEq] at hlk
    cases hlk2 : lookupInfo m n2 with
    | none =>
      rw [hlk2] at hlk
      rw [← hlk]
      refine ⟨ht, ?_⟩
      show (1 : Nat) < 2 ^ 64
      norm_num
    | some k =>
      rw [hlk2] at hlk
      rw [← hlk]
      constructor
      · show u64add k.total_time time < 2 ^ 64
        unfold u64add U64
        exact Nat.mod_lt _ (by norm_num)
      · show u64add k.call_count 1 < 2 ^ 64
        unfold u64add U64
        exact Nat.mod_lt _ (by norm_num)
  · rw [lookupInfo_addKernelInfoRec_other m name n2 time simd_width h] at hlk
    exact hw n2 k2 hlk

theorem sumDurations_cons (n : String) (time simd_width : Nat)
    (rest : List (String × Nat × Nat)) (name : String) :
    sumDurations ((n, time, simd_width) :: rest) name =
      (if n = name then time else 0) + sumDurations rest name := by
  by_cases h : n = name <;> simp [sumDurations, List.filter_cons, h]

theorem countCalls_cons (n : String) (time simd_width : Nat)
    (rest : List (String × Nat × Nat)) (name : String) :
    countCalls ((n, time, simd_width) :: rest) name =
      (if n = name then 1 else 0) + countCalls rest name := by
  by_cases h : n = name
  · simp [countCalls, List.filter_cons, h]
    omega
  · simp [countCalls, List.filter_cons, h]

theorem infoWF_nil : infoWF [] := by
  intro name k h
  simp [lookupInfo] at h

theorem addMany_totals (calls : List (String × Nat × Nat)) :
    ∀ (m m2 : ZeKernelInfoMap), infoWF m →
      (∀ c ∈ calls, c.2.1 < 2 ^ 64) →
      addMany m calls = some m2 →
      ∀ name,
        totalOf m2 name = (totalOf m name + sumDurations calls name) % 2 ^ 64 ∧
        countOf m2 name = (countOf m name + countCalls calls name) % 2 ^ 64 := by
  induction calls with
  | nil =>
    intro m m2 hw hc h name
    simp [addMany] at h
    subst h
    constructor
    · simp [sumDurations]
      exact (Nat.mod_eq_of_lt (totalOf_lt_of_infoWF m name hw)).symm
    · simp [countCalls]
      exact (Nat.mod_eq_of_lt (countOf_lt_of_infoWF m name hw)).symm
  | cons c rest ih =>
    intro m m2 hw hc h name
    obtain ⟨n, time, simd_width⟩ := c
    have htlt : time < 2 ^ 64 := hc (n, time, simd_width) (by simp)
    have hcrest : ∀ c ∈ rest, c.2.1 < 2 ^ 64 := fun c hcm => hc c (by simp [hcm])
    unfold addMany at h
    cases hadd : addKernelInfo m n time simd_width with
    | none => rw [hadd] at h; exact absurd h (by simp)
    | some m1 =>
      rw [hadd] at h
      have hm1 : m1 = addKernelInfoRec m n time simd_width := by
        unfold addKernelInfo at hadd
        by_cases hn : n = ""
        · simp [hn] at hadd
        · simp [hn] at hadd; exact hadd.symm
      subst hm1
      obtain ⟨ht, hc2⟩ := ih (addKernelInfoRec m n time simd_width) m2
        (infoWF_addKernelInfoRec m n time simd_width hw htlt) hcrest h name
      rw [ht, hc2, totalOf_addKernelInfoRec, countOf_addKernelInfoRec,
          sumDurations_cons, countCalls_cons]
      constructor
      · by_cases hne : name = n
        · subst hne
          cases hlk : lookupInfo m name with
          | none =>
            rw [totalOf_of_none m name hlk]
            simp [hlk]
          | some k =>
            simp [hlk]
            omega
        · simp [hne, Ne.symm hne]
      · by_cases hne : name = n
        · subst hne
          cases hlk : lookupInfo m name with
          | none =>
            rw [countOf_of_none m name hlk]
            simp [hlk]
          | some k =>
            simp [hlk]
            omega
        · simp [hne, Ne.symm hne]

/-- C6: the first AddKernelInfo call under a name inserts
    (time, time, time, 1, simd_width); each later call adds time to the
    total and increments the count (uint64 compound additions, so modulo
    2^64), takes min and max with the old bounds and keeps the larger simd
    width; and the sequence [10, 30, 20] under one name yields total 60,
    min 10, max 30, count 3. -/
theorem add_kernel_info_contract_c6 :
    (∀ (m : ZeKernelInfoMap) (name : String) (time simd_width : Nat),
      name ≠ "" → lookupInfo m name = none →
      addKernelInfo m name time simd_width =
        some (m ++ [(name, ⟨time, time, time, 1, simd_width⟩)]))
    ∧ (∀ (m : ZeKernelInfoMap) (name : String) (time simd_width : Nat)
        (k : ZeKernelInfo),
      name ≠ "" → lookupInfo m name = some k →
      ∃ m2, addKernelInfo m name time simd_width = some m2 ∧
        lookupInfo m2 name =
          some ⟨(k.total_time + time) % 2 ^ 64, min k.min_time time,
                max k.max_time time, (k.call_count + 1) % 2 ^ 64,
                max k.simd_width simd_width⟩)
    ∧ Option.bind (addMany [] [("kernel", 10, 8), ("kernel", 30, 8), ("kernel", 20, 8)])
        (fun m2 => lookupInfo m2 "kernel") = some ⟨60, 10, 30, 3, 8⟩ := by
  refine ⟨?_, ?_, by decide⟩
  · intro m name time simd_width hname hnone
    unfold addKernelInfo
    rw [if_neg hname, addKernelInfoRec_of_lookup_none m name time simd_width hnone]
  · intro m name time simd_width k hname hsome
    refine ⟨addKernelInfoRec m name time simd_width, ?_, ?_⟩
    · unfold addKernelInfo
      rw [if_neg hname]
    · rw [lookupInfo_addKernelInfoRec_self, hsome]
      have hmin : (if time < k.min_time then time else k.min_time) =
          min k.min_time time := by
        rw [Nat.min_def]
        split_ifs <;> omega
      have hmax : (if time > k.max_time then time else k.max_time) =
          max k.max_time time := by
        rw [Nat.max_def]
        split_ifs <;> omega
      show some (updateInfo k time simd_width) = _
      unfold updateInfo u64add U64
      rw [hmin, hmax]

/-- Witness for C6 at concrete inputs. -/
theorem add_kernel_info_contract_c6_witness :
    addKernelInfo [] "k" 5 4 = some ([] ++ [("k", ⟨5, 5, 5, 1, 4⟩)])
    ∧ (∃ m2, addKernelInfo [("k", ⟨5, 5, 5, 1, 4⟩)] "k" 3 6 = some m2 ∧
        lookupInfo m2 "k" = some ⟨8, 3, 5, 2, 6⟩) := by
  constructor
  · exact add_kernel_info_contract_c6.1 [] "k" 5 4 (by decide) (by decide)
  · obtain ⟨m2, h1, h2⟩ := add_kernel_info_contract_c6.2.1
      [("k", ⟨5, 5, 5, 1, 4⟩)] "k" 3 6 ⟨5, 5, 5, 1, 4⟩ (by decide) (by decide)
    exact ⟨m2, h1, h2.trans (by decide)⟩

/-- C7 counterexample: the uint64 accumulator wraps.  Adding the duration
    2^63 twice under one name leaves total_time = 0, while the sum of the
    contributing durations is 2^64, so the entry total does not equal the
    sum; and the second Add decreased total_time from 2^63 to 0, so the
    entry is not updated monotonically. -/
theorem aggregate_overflow_c7_counterexample :
    Option.bind (addMany [] [("k", 2 ^ 63, 1)]) (fun m2 => lookupInfo m2 "k") =
      some ⟨2 ^ 63, 2 ^ 63, 2 ^ 63, 1, 1⟩
    ∧ Option.bind (addMany [] [("k", 2 ^ 63, 1), ("k", 2 ^ 63, 1)])
        (fun m2 => lookupInfo m2 "k") = some ⟨0, 2 ^ 63, 2 ^ 63, 2, 1⟩
    ∧ sumDurations [("k", 2 ^ 63, 1), ("k", 2 ^ 63, 1)] "k" = 2 ^ 64 := by
  decide

/-- C7 as amended: for every map reachable by a sequence of Add calls with
    uint64 durations from the empty map, each entry records the sum of its
    contributing durations reduced modulo 2^64 in total_time and the
    number of contributing calls reduced modulo 2^64 in call_count; one
    Add never decreases the max time of any entry, and never decreases its
    total time or call count as long as the uint64 addition does not
    wrap. -/
theorem aggregate_invariant_c7 :
    (∀ (calls : List (String × Nat × Nat)) (m2 : ZeKernelInfoMap),
      (∀ c ∈ calls, c.2.1 < 2 ^ 64) →
      addMany [] calls = some m2 →
      ∀ (name : String) (k : ZeKernelInfo), lookupInfo m2 name = some k →
        k.total_time = sumDurations calls name % 2 ^ 64 ∧
        k.call_count = countCalls calls name % 2 ^ 64)
    ∧ (∀ (m : ZeKernelInfoMap) (name : String) (time simd_width : Nat)
        (m2 : ZeKernelInfoMap),
      addKernelInfo m name time simd_width = some m2 →
      ∀ (n : String) (k : ZeKernelInfo), lookupInfo m n = some k →
        ∃ k2, lookupInfo m2 n = some k2 ∧
          (k.total_time + time < 2 ^ 64 → k.total_time ≤ k2.total_time) ∧
          (k.call_count + 1 < 2 ^ 64 → k.call_count ≤ k2.call_count) ∧
          k.max_time ≤ k2.max_time) := by
  constructor
  · intro calls m2 hcalls h name k hk
    obtain ⟨ht, hc⟩ := addMany_totals calls [] m2 infoWF_nil hcalls h name
    unfold totalOf at ht
    unfold countOf at hc
    rw [hk] at ht hc
    simp [lookupInfo] at ht hc
    exact ⟨ht, hc⟩
  · intro m name time simd_width m2 hadd n k hk
    have hm2 : m2 = addKernelInfoRec m name time simd_width := by
      unfold addKernelInfo at hadd
      by_cases hn : name = ""
      · simp [hn] at hadd
      · simp [hn] at hadd
        exact hadd.symm
    subst hm2
    by_cases hne : n = name
    · subst hne
      rw [lookupInfo_addKernelInfoRec_self, hk]
      refine ⟨updateInfo k time simd_width, rfl, ?_, ?_, ?_⟩
      · intro hlt
        show k.total_time ≤ (updateInfo k time simd_width).total_time
        unfold updateInfo u64add U64
        dsimp
        omega
      · intro hlt
        show k.call_count ≤ (updateInfo k time simd_width).call_count
        unfold updateInfo u64add U64
        dsimp
        omega
      · show k.max_time ≤ (updateInfo k time simd_width).max_time
        unfold updateInfo
        dsimp
        split_ifs <;> omega
    · rw [lookupInfo_addKernelInfoRec_other m name n time simd_width hne, hk]
      exact ⟨k, rfl, fun _ => le_refl _, fun _ => le_refl _, le_refl _⟩

/-- Witness for the amended C7 at concrete inputs. -/
theorem aggregate_invariant_c7_witness :
    ((⟨10, 10, 10, 1, 8⟩ : ZeKernelInfo).total_time =
        sumDurations [("k", 10, 8)] "k" % 2 ^ 64 ∧
      (⟨10, 10, 10, 1, 8⟩ : ZeKernelInfo).call_count =
        countCalls [("k", 10, 8)] "k" % 2 ^ 64)
    ∧ (∃ k2, lookupInfo [("k", ⟨15, 5, 10, 2, 8⟩)] "k" = some k2 ∧
        ((⟨10, 10, 10, 1, 8⟩ : ZeKernelInfo).total_time + 5 < 2 ^ 64 →
          (⟨10, 10, 10, 1, 8⟩ : ZeKernelInfo).total_time ≤ k2.total_time) ∧
        ((⟨10, 10, 10, 1, 8⟩ : ZeKernelInfo).call_count + 1 < 2 ^ 64 →
          (⟨10, 10, 10, 1, 8⟩ : ZeKernelInfo).call_count ≤ k2.call_count) ∧
        (⟨10, 10, 10, 1, 8⟩ : ZeKernelInfo).max_time ≤ k2.max_time) := by
  constructor
  · exact aggregate_invariant_c7.1 [("k", 10, 8)] [("k", ⟨10, 10, 10, 1, 8⟩)]
      (by decide) (by decide) "k" ⟨10, 10, 10, 1, 8⟩ (by decide)
  · exact aggregate_invariant_c7.2 [("k", ⟨10, 10, 10, 1, 8⟩)] "k" 5 4
      [("k", ⟨15, 5, 10, 2, 8⟩)] (by decide) "k" ⟨10, 10, 10, 1, 8⟩ (by decide)

/-- C3: delivering a completion notification for a signal that matches no
    in-flight instance (in particular, a duplicate notification after the
    instance was already resolved and erased) leaves the whole collector
    state unchanged: the in-flight table, the aggregate map and the
    interval list are untouched and no record is produced. -/
theorem duplicate_notification_noop_c3 (env : EventEnv) (s : CollectorState)
    (event : Nat) (h0 : event ≠ 0)
    (h : ∀ i ∈ s.kernel_instance_list, i.event ≠ event) :
    processInstanceByEvent env s event = some s := by
  unfold processInstanceByEvent
  rw [if_neg h0]
  have hf : s.kernel_instance_list.find? (fun i => i.event == event) = none := by
    rw [List.find?_eq_none]
    intro i hi
    simp [h i hi]
  rw [hf]

/-- Witness for C3 at concrete inputs. -/
theorem duplicate_notification_noop_c3_witness :
    processInstanceByEvent ⟨fun _ => ZeResult.success, fun _ => (0, 0)⟩
      ⟨[("k", ⟨7, 7, 7, 1, 4⟩)], [⟨"k", 0, 7⟩], [⟨"k", 4, none, 7⟩], [(5, 9)], 1000⟩ 3 =
    some ⟨[("k", ⟨7, 7, 7, 1, 4⟩)], [⟨"k", 0, 7⟩], [⟨"k", 4, none, 7⟩], [(5, 9)], 1000⟩ :=
  duplicate_notification_noop_c3 ⟨fun _ => ZeResult.success, fun _ => (0, 0)⟩
    ⟨[("k", ⟨7, 7, 7, 1, 4⟩)], [⟨"k", 0, 7⟩], [⟨"k", 4, none, 7⟩], [(5, 9)], 1000⟩ 3
    (by decide) (by decide)

theorem processInstancesGo_kept (env : EventEnv) (timer_frequency : Nat)
    (l : List ZeKernelInstance) :
    ∀ (info : ZeKernelInfoMap) (intervals : ZeKernelIntervalList)
      (kept : List ZeKernelInstance) (info2 : ZeKernelInfoMap)
      (intervals2 : ZeKernelIntervalList),
      processInstancesGo env timer_frequency l info intervals =
        some (kept, info2, intervals2) →
      kept = l.filter (fun i => env.status i.event == ZeResult.notReady) := by
  induction l with
  | nil =>
    intro info intervals kept info2 intervals2 h
    simp only [processInstancesGo, Option.some.injEq, Prod.mk.injEq] at h
    obtain ⟨h1, -, -⟩ := h
    simp [← h1]
  | cons inst rest ih =>
    intro info intervals kept info2 intervals2 h
    by_cases h0 : inst.event = 0
    · simp [processInstancesGo, h0] at h
    · cases hst : env.status inst.event with
      | notReady =>
        simp only [processInstancesGo, if_neg h0, hst] at h
        cases hgo : processInstancesGo env timer_frequency rest info intervals with
        | none =>
          rw [hgo] at h
          exact absurd h (by simp)
        | some t =>
          obtain ⟨kept1, info1, intervals1⟩ := t
          rw [hgo] at h
          simp only [Option.some.injEq, Prod.mk.injEq] at h
          obtain ⟨h1, -, -⟩ := h
          subst h1
          rw [List.filter_cons]
          simp only [hst, beq_self_eq_true, if_true]
          rw [ih info intervals kept1 info1 intervals1 hgo]
      | success =>
        simp only [processInstancesGo, if_neg h0, hst] at h
        cases hcore : processInstanceCore env timer_frequency info intervals inst with
        | none =>
          rw [hcore] at h
          exact absurd h (by simp)
        | some t =>
          obtain ⟨info1, intervals1⟩ := t
          rw [hcore] at h
          rw [List.filter_cons]
          simp only [hst]
          rw [if_neg (by simp)]
          exact ih info1 intervals1 kept info2 intervals2 h
      | otherError =>
        simp [processInstancesGo, h0, hst] at h

/-- C5: when a queue-synchronize callback with a success result returns a
    new state, the in-flight table holds exactly the instances whose
    completion signal polled ZE_RESULT_NOT_READY, unchanged and in order
    (so they are revisited by the next synchronize callback), while every
    instance that polled ready was resolved and removed in this pass. -/
theorem not_ready_instances_remain_c5 (env : EventEnv) (s s2 : CollectorState)
    (h : onExitCommandQueueSynchronize env ZeResult.success s = some s2) :
    s2.kernel_instance_list =
      s.kernel_instance_list.filter
        (fun i => env.status i.event == ZeResult.notReady) := by
  unfold onExitCommandQueueSynchronize at h
  rw [if_pos rfl] at h
  unfold processInstances at h
  cases hgo : processInstancesGo env s.timer_frequency s.kernel_instance_list
      s.kernel_info_map s.kernel_interval_list with
  | none =>
    rw [hgo] at h
    exact absurd h (by simp)
  | some t =>
    obtain ⟨kept, info2, intervals2⟩ := t
    rw [hgo] at h
    simp only [Option.some.injEq] at h
    subst h
    exact processInstancesGo_kept env s.timer_frequency s.kernel_instance_list
      s.kernel_info_map s.kernel_interval_list kept info2 intervals2 hgo

/-- Witness for C5 at concrete inputs. -/
theorem not_ready_instances_remain_c5_witness :
    (⟨[("k", ⟨5, 5, 5, 1, 8⟩)], [⟨"k", 0, 5⟩], [⟨"m", 4, none, 2⟩], [],
        1000000000⟩ : CollectorState).kernel_instance_list =
      (⟨[], [], [⟨"k", 8, none, 1⟩, ⟨"m", 4, none, 2⟩], [],
          1000000000⟩ : CollectorState).kernel_instance_list.filter
        (fun i => (⟨fun e => if e = 1 then ZeResult.success else ZeResult.notReady,
            fun _ => (0, 5)⟩ : EventEnv).status i.event == ZeResult.notReady) :=
  not_ready_instances_remain_c5
    ⟨fun e => if e = 1 then ZeResult.success else ZeResult.notReady, fun _ => (0, 5)⟩
    ⟨[], [], [⟨"k", 8, none, 1⟩, ⟨"m", 4, none, 2⟩], [], 1000000000⟩
    ⟨[("k", ⟨5, 5, 5, 1, 8⟩)], [⟨"k", 0, 5⟩], [⟨"m", 4, none, 2⟩], [], 1000000000⟩
    (by decide)

theorem lookupCmdList_filter_self (m : ZeCommandListMap) (cl : Nat) :
    lookupCmdList (m.filter (fun p => !(p.1 == cl))) cl = none := by
  induction m with
  | nil => rfl
  | cons p rest ih =>
    obtain ⟨c, ctx⟩ := p
    by_cases h : c = cl
    · simp [List.filter_cons, h, ih]
    · simp [List.filter_cons, h, lookupCmdList, ih]

/-- C1 counterexample: a command list (handle 5) is destroyed with a
    success result while one of its instances is still unresolved (its
    signal polls not-ready); the destruction callback returns normally,
    yet the in-flight table still holds that instance and a lookup by its
    old completion signal (handle 3) still finds it, contradicting the
    claim that the table holds no instance of the destroyed list and that
    no later completion-signal lookup succeeds. -/
theorem destroy_keeps_not_ready_c1_counterexample :
    (onExitCommandListDestroy
        ⟨fun _ => ZeResult.notReady, fun _ => (0, 0)⟩ ZeResult.success 5
        ⟨[], [], [⟨"k", 8, some 2, 3⟩], [(5, 7)], 1000000000⟩).map
        (fun s2 => (s2.kernel_instance_list,
          (s2.kernel_instance_list.find? (fun i => i.event == 3)).isSome)) =
      some ([⟨"k", 8, some 2, 3⟩], true) := by decide

/-- C1 as amended: on command-list destruction with a success result the
    collector runs one resolution sweep over the whole in-flight table:
    every instance (of any list) whose signal polls ready is resolved and
    removed, instances whose signal polls not-ready remain in the table,
    and the metadata entry of the destroyed list is removed. -/
theorem destroy_resolves_ready_only_c1 (env : EventEnv) (command_list : Nat)
    (s s2 : CollectorState)
    (h : onExitCommandListDestroy env ZeResult.success command_list s = some s2) :
    s2.kernel_instance_list =
      s.kernel_instance_list.filter
        (fun i => env.status i.event == ZeResult.notReady)
    ∧ lookupCmdList s2.command_list_map command_list = none := by
  unfold onExitCommandListDestroy at h
  rw [if_pos rfl] at h
  by_cases h0 : command_list = 0
  · rw [if_pos h0] at h
    exact absurd h (by simp)
  · rw [if_neg h0] at h
    cases hpi : processInstances env s with
    | none =>
      rw [hpi] at h
      exact absurd h (by simp)
    | some s1 =>
      rw [hpi] at h
      have h2 : removeCommandList s1 command_list = some s2 := h
      unfold removeCommandList at h2
      rw [if_neg h0] at h2
      by_cases hcnt : countCmdList s1.command_list_map command_list = 1
      · rw [if_pos hcnt] at h2
        simp only [Option.some.injEq] at h2
        subst h2
        constructor
        · show s1.kernel_instance_list = _
          unfold processInstances at hpi
          cases hgo : processInstancesGo env s.timer_frequency s.kernel_instance_list
              s.kernel_info_map s.kernel_interval_list with
          | none =>
            rw [hgo] at hpi
            exact absurd hpi (by simp)
          | some t =>
            obtain ⟨kept, info2, intervals2⟩ := t
            rw [hgo] at hpi
            simp only [Option.some.injEq] at hpi
            rw [← hpi]
            exact processInstancesGo_kept env s.timer_frequency s.kernel_instance_list
              s.kernel_info_map s.kernel_interval_list kept info2 intervals2 hgo
        · show lookupCmdList (s1.command_list_map.filter
              (fun p => !(p.1 == command_list))) command_list = none
          exact lookupCmdList_filter_self s1.command_list_map command_list
      · rw [if_neg hcnt] at h2
        exact absurd h2 (by simp)

/-- Witness for the amended C1 at concrete inputs. -/
theorem destroy_resolves_ready_only_c1_witness :
    (⟨[], [], [⟨"k", 8, some 2, 3⟩], [], 1000000000⟩ :
        CollectorState).kernel_instance_list =
      (⟨[], [], [⟨"k", 8, some 2, 3⟩], [(5, 7)], 1000000000⟩ :
          CollectorState).kernel_instance_list.filter
        (fun i => (⟨fun _ => ZeResult.notReady, fun _ => (0, 0)⟩ :
            EventEnv).status i.event == ZeResult.notReady)
    ∧ lookupCmdList (⟨[], [], [⟨"k", 8, some 2, 3⟩], [], 1000000000⟩ :
        CollectorState).command_list_map 5 = none :=
  destroy_resolves_ready_only_c1 ⟨fun _ => ZeResult.notReady, fun _ => (0, 0)⟩ 5
    ⟨[], [], [⟨"k", 8, some 2, 3⟩], [(5, 7)], 1000000000⟩
    ⟨[], [], [⟨"k", 8, some 2, 3⟩], [], 1000000000⟩ (by decide)

/-- C4: when the underlying append call reports a non-success result in
    the exit callback, the instance built in the enter callback is never
    added to the in-flight table (the collector state is unchanged, so no
    record can ever be produced for it) and a tracker-owned completion
    signal and its event pool are destroyed immediately; on a success
    result the instance is appended to the in-flight table. -/
theorem failed_submission_teardown_c4 :
    (∀ (s : CollectorState) (command_list : Nat) (inst : ZeKernelInstance)
        (result : ZeResult) (pool : Nat),
      command_list ≠ 0 → result ≠ ZeResult.success → inst.event_pool = some pool →
      onExitKernelAppend s command_list (some inst) result =
        some (s, [DriverAction.destroyEvent inst.event,
                  DriverAction.destroyEventPool pool]))
    ∧ (∀ (s : CollectorState) (command_list : Nat) (inst : ZeKernelInstance)
        (result : ZeResult),
      command_list ≠ 0 → result ≠ ZeResult.success → inst.event_pool = none →
      onExitKernelAppend s command_list (some inst) result = some (s, []))
    ∧ (∀ (s : CollectorState) (command_list : Nat) (inst : ZeKernelInstance),
      command_list ≠ 0 →
      onExitKernelAppend s command_list (some inst) ZeResult.success =
        some ({ s with kernel_instance_list := s.kernel_instance_list ++ [inst] },
          [])) := by
  refine ⟨?_, ?_, ?_⟩
  · intro s command_list inst result pool h0 hr hp
    simp [onExitKernelAppend, h0, hr, hp]
  · intro s command_list inst result h0 hr hp
    simp [onExitKernelAppend, h0, hr, hp]
  · intro s command_list inst h0
    simp [onExitKernelAppend, h0]

/-- Witness for C4 at concrete inputs. -/
theorem failed_submission_teardown_c4_witness :
    onExitKernelAppend ⟨[], [], [], [], 7⟩ 5 (some ⟨"k", 8, some 2, 3⟩)
        ZeResult.otherError =
      some (⟨[], [], [], [], 7⟩,
        [DriverAction.destroyEvent 3, DriverAction.destroyEventPool 2])
    ∧ onExitKernelAppend ⟨[], [], [], [], 7⟩ 5 (some ⟨"k", 8, none, 3⟩)
        ZeResult.otherError =
      some (⟨[], [], [], [], 7⟩, [])
    ∧ onExitKernelAppend ⟨[], [], [], [], 7⟩ 5 (some ⟨"k", 8, none, 3⟩)
        ZeResult.success =
      some (⟨[], [], [] ++ [⟨"k", 8, none, 3⟩], [], 7⟩, []) :=
  ⟨failed_submission_teardown_c4.1 ⟨[], [], [], [], 7⟩ 5 ⟨"k", 8, some 2, 3⟩
      ZeResult.otherError 2 (by decide) (by decide) rfl,
   failed_submission_teardown_c4.2.1 ⟨[], [], [], [], 7⟩ 5 ⟨"k", 8, none, 3⟩
      ZeResult.otherError (by decide) (by decide) rfl,
   failed_submission_teardown_c4.2.2 ⟨[], [], [], [], 7⟩ 5 ⟨"k", 8, none, 3⟩
      (by decide)⟩

theorem addCommandList_count_ne_zero (s : CollectorState) (cl ctx : Nat)
    (h : countCmdList s.command_list_map cl ≠ 0) :
    addCommandList s cl ctx = none := by
  unfold addCommandList
  by_cases h0 : cl = 0
  · rw [if_pos h0]
  · rw [if_neg h0]
    by_cases hc : ctx = 0
    · rw [if_pos hc]
    · rw [if_neg hc, if_neg h]

/-- C10: a kernel-launch enter callback with no caller-supplied signal
    looks the command list up in the metadata map, and the lookup asserts
    that exactly one entry exists: if the creation of the list was never
    observed (or its metadata was already removed) the callback is a fatal
    assertion failure (none); likewise registering the same command-list
    handle twice without an intervening destroy is a fatal assertion
    failure. -/
theorem command_list_metadata_asserts_c10 :
    (∀ (s : CollectorState) (name : String)
        (simd_width command_list fresh_pool fresh_event : Nat),
      name ≠ "" → command_list ≠ 0 →
      countCmdList s.command_list_map command_list = 0 →
      onEnterKernelAppend s name simd_width 0 command_list fresh_pool
        fresh_event = none)
    ∧ (∀ (s s2 : CollectorState) (command_list context context2 : Nat),
      addCommandList s command_list context = some s2 →
      addCommandList s2 command_list context2 = none) := by
  constructor
  · intro s name simd_width command_list fresh_pool fresh_event hname h0 hcnt
    unfold onEnterKernelAppend
    rw [if_neg hname, if_neg h0, if_pos rfl]
    unfold getCommandListContext
    rw [if_neg h0, if_neg (by omega)]
  · intro s s2 command_list context context2 hadd
    unfold addCommandList at hadd
    by_cases h0 : command_list = 0
    · rw [if_pos h0] at hadd
      exact absurd hadd (by simp)
    · rw [if_neg h0] at hadd
      by_cases hctx : context = 0
      · rw [if_pos hctx] at hadd
        exact absurd hadd (by simp)
      · rw [if_neg hctx] at hadd
        by_cases hcnt : countCmdList s.command_list_map command_list = 0
        · rw [if_pos hcnt] at hadd
          simp only [Option.some.injEq] at hadd
          subst hadd
          have hc2 : countCmdList
              ({ s with command_list_map :=
                  s.command_list_map ++ [(command_list, context)] } :
                CollectorState).command_list_map command_list =
              countCmdList s.command_list_map command_list + 1 := by
            show countCmdList
              (s.command_list_map ++ [(command_list, context)]) command_list = _
            unfold countCmdList
            simp [List.filter_append]
          exact addCommandList_count_ne_zero _ command_list context2 (by omega)
        · rw [if_neg hcnt] at hadd
          exact absurd hadd (by simp)

/-- Witness for C10 at concrete inputs. -/
theorem command_list_metadata_asserts_c10_witness :
    onEnterKernelAppend ⟨[], [], [], [], 9⟩ "k" 8 0 5 100 101 = none
    ∧ addCommandList ⟨[], [], [], [(5, 7)], 9⟩ 5 7 = none :=
  ⟨command_list_metadata_asserts_c10.1 ⟨[], [], [], [], 9⟩ "k" 8 5 100 101
      (by decide) (by decide) (by decide),
   command_list_metadata_asserts_c10.2 ⟨[], [], [], [], 9⟩
      ⟨[], [], [], [(5, 7)], 9⟩ 5 7 7 (by decide)⟩

/-- C8: evaluation of BufferReturned at a non-null buffer with capacity 64
    and valid length 0.  The handler attempts no record decoding, as the
    claim states, but it also returns without freeing the buffer (the
    inner guard frees only when the valid length is non-zero), so the
    "release immediately" half of the claim is violated by the code. -/
theorem zero_valid_length_buffer_c8 :
    bufferReturned 1 64 0 [] =
      { decode_attempted := false, records_added := 0, freed := false } := by
  decide
